import Mathlib

/-!
Shallow embedding of the `LiveConversation` React component
(src/unnamed/part_002): the streaming audio session of the repository.

The component's mutable pieces (React state hooks, the `audioResources`
ref, the `sessionRef`) become fields of `ComponentState`; the callbacks
(`onopen`, `onmessage`, `onerror`, the `scriptProcessor.onaudioprocess`
capture callback) and the functions `stopConversation`,
`startConversation`, `toggleConversation` become state transformers.
Times are rationals in seconds, mirroring the Web Audio clock.
`AudioBufferSourceNode` identity is modelled by a fresh natural-number id
drawn from a counter, and the presence of a platform resource (media
stream, audio context, gain node, script processor, analyser) by a
boolean flag.
-/

namespace LiveConv

/-- The `TranscriptionTurn` record type of the component (local `user`
transcript and remote `model` transcript). -/
structure TranscriptionTurn where
  user : String
  model : String
deriving DecidableEq

/-- The `audioResources` ref bundle: every field of the object literal at
lines 76-98 of the source, with platform handles abstracted to presence
flags and the `Set<AudioBufferSourceNode>` to a list of source ids. -/
structure AudioResources where
  stream : Bool
  inputAudioContext : Bool
  outputAudioContext : Bool
  outputGainNode : Bool
  scriptProcessor : Bool
  inputAnalyser : Bool
  outputAnalyser : Bool
  sources : List Nat
  nextStartTime : ℚ
  animationFrameId : Bool
deriving DecidableEq

/-- The reset value of `audioResources` (the initial object literal, also
assigned on teardown). -/
def initResources : AudioResources :=
  { stream := false
    inputAudioContext := false
    outputAudioContext := false
    outputGainNode := false
    scriptProcessor := false
    inputAnalyser := false
    outputAnalyser := false
    sources := []
    nextStartTime := 0
    animationFrameId := false }

/-- The whole component state: the React state hooks (`isActive`,
`isConnecting`, `transcription`, `currentTurn`, `error`), the session ref
(`session = true` iff `sessionRef.current` is non-null), and the audio
resource bundle.  `nextSourceId` is a modelling counter supplying fresh
ids for newly created buffer source nodes. -/
structure ComponentState where
  isActive : Bool
  isConnecting : Bool
  transcription : List TranscriptionTurn
  currentTurn : TranscriptionTurn
  error : Option String
  session : Bool
  resources : AudioResources
  nextSourceId : Nat
deriving DecidableEq

/-- The component's initial state (all hooks at their `useState`
initial values). -/
def initState : ComponentState :=
  { isActive := false
    isConnecting := false
    transcription := []
    currentTurn := ⟨"", ""⟩
    error := none
    session := false
    resources := initResources
    nextSourceId := 0 }

/-- Modelled from the spec: `decodeAudioData` (from `utils/audio`, a file
absent from src/) decodes a base64 audio payload into a playback buffer
at the fixed output sample rate, or fails with a `DecodeError` on a
corrupt payload.  We keep only what the scheduling code reads from the
result: the buffer's duration in seconds. -/
inductive AudioPayload where
  | chunk (duration : ℚ)
  | corrupt
deriving DecidableEq

/-- One inbound `LiveServerMessage`, restricted to the fields the
`onmessage` handler reads: the two transcription deltas, the inline audio
data of `modelTurn.parts[0]`, and the `turnComplete` / `interrupted`
flags. -/
structure ServerMessage where
  outputTranscription : Option String
  inputTranscription : Option String
  audioData : Option AudioPayload
  turnComplete : Bool
  interrupted : Bool
deriving DecidableEq

/-- `stopConversation` (lines 114-153): clears `isActive`, clears the
error, closes and drops the session ref, stops the media tracks,
disconnects the audio graph nodes, cancels the pending animation frame,
and resets `audioResources` to the initial bundle.  All the releases are
guarded by optional chaining in the source, so they are represented by
the bundle reset alone.  `isConnecting` is not touched by the source. -/
def stopConversation (s : ComponentState) : ComponentState :=
  { s with
    isActive := false
    error := none
    session := false
    resources := initResources }

/-- Result of `startConversation`: the new component state plus whether
`ai.live.connect` was reached (a transport connection attempt). -/
structure StartResult where
  state : ComponentState
  connectAttempted : Bool
deriving DecidableEq

/-- `startConversation` (lines 155-300), parametrised by whether
`getUserMedia` grants the microphone.  On grant: the stream, the two
audio contexts, the analysers and the gain node are installed,
`nextStartTime` and `sources` are reset, and `ai.live.connect` is called
(session ref set).  On denial the first `await` throws and the `catch`
block runs: `setIsConnecting(false)`, `setError(...)`, then
`stopConversation()` — whose own `setError(null)` overwrites the message
just set. -/
def startConversation (micOk : Bool) (s : ComponentState) : StartResult :=
  let s0 := { s with isConnecting := true, error := none }
  if micOk then
    { state :=
        { s0 with
          session := true
          resources :=
            { s0.resources with
              stream := true
              inputAudioContext := true
              outputAudioContext := true
              inputAnalyser := true
              outputAnalyser := true
              outputGainNode := true
              nextStartTime := 0
              sources := [] } }
      connectAttempted := true }
  else
    { state :=
        stopConversation
          { s0 with
            isConnecting := false
            error := some "Failed to connect to the live agent. Check microphone permissions." }
      connectAttempted := false }

/-- The `onopen` callback (lines 198-224): `setIsConnecting(false)`,
`setIsActive(true)`, start of the animation loop, creation and wiring of
the `scriptProcessor` whose `onaudioprocess` is the capture callback. -/
def onOpen (s : ComponentState) : ComponentState :=
  { s with
    isConnecting := false
    isActive := true
    resources := { s.resources with animationFrameId := true, scriptProcessor := true } }

/-- The `onerror` callback (lines 278-283): `setError(...)` followed by
`stopConversation()` — whose `setError(null)` again overwrites the
message. -/
def onError (s : ComponentState) : ComponentState :=
  stopConversation
    { s with error := some "Live session encountered an error. Please try again." }

/-- The `outputTranscription` branch of `onmessage` (lines 227-229): the
remote delta is appended to `currentTurn.model`. -/
def applyOutputDelta (m : ServerMessage) (s : ComponentState) : ComponentState :=
  match m.outputTranscription with
  | some t => { s with currentTurn := { s.currentTurn with model := s.currentTurn.model ++ t } }
  | none => s

/-- The `inputTranscription` branch of `onmessage` (lines 230-232): the
local delta is appended to `currentTurn.user`. -/
def applyInputDelta (m : ServerMessage) (s : ComponentState) : ComponentState :=
  match m.inputTranscription with
  | some t => { s with currentTurn := { s.currentTurn with user := s.currentTurn.user ++ t } }
  | none => s

/-- The two transcription branches at the top of `onmessage`, in source
order: output delta first, then input delta. -/
def applyDeltas (m : ServerMessage) (s : ComponentState) : ComponentState :=
  applyInputDelta m (applyOutputDelta m s)

/-- Result of one `onmessage` invocation: the new state, the timestamp
passed to `source.start` if an audio chunk was scheduled, and the ids of
the sources on which `stop()` was called. -/
structure MsgResult where
  state : ComponentState
  scheduledStart : Option ℚ
  stopped : List Nat
deriving DecidableEq

/-- The `turnComplete` branch (lines 260-266): it reads the pre-message
accumulator snapshot `refTurn` (the value of `currentTurnRef.current` on
entry), appends it to the log when one of its components is nonempty,
and resets the accumulator. -/
def applyTurnComplete (refTurn : TranscriptionTurn) (m : ServerMessage)
    (s : ComponentState) : ComponentState :=
  if m.turnComplete then
    { s with
      transcription :=
        if refTurn.user ≠ "" ∨ refTurn.model ≠ "" then s.transcription ++ [refTurn]
        else s.transcription
      currentTurn := ⟨"", ""⟩ }
  else s

/-- The `interrupted` branch (lines 269-276) applied after the
turn-complete branch: every source in the active set is stopped and
removed, and `nextStartTime` is assigned `0`. -/
def finishMessage (refTurn : TranscriptionTurn) (m : ServerMessage)
    (s : ComponentState) (sched : Option ℚ) : MsgResult :=
  if m.interrupted then
    { state :=
        { applyTurnComplete refTurn m s with
          resources :=
            { (applyTurnComplete refTurn m s).resources with
              sources := []
              nextStartTime := 0 } }
      scheduledStart := sched
      stopped := (applyTurnComplete refTurn m s).resources.sources }
  else
    { state := applyTurnComplete refTurn m s, scheduledStart := sched, stopped := [] }

/-- The `onmessage` callback (lines 225-277).  Deltas first; then the
audio branch, entered when inline data is present and the output context
and gain node exist: `nextStartTime` is first raised to
`max nextStartTime currentTime`, then the payload is decoded — a decode
failure rejects the `await` and aborts the rest of the handler — and on
success a fresh source is scheduled at the raised time, `nextStartTime`
advances by the buffer's duration, and the source joins the active set;
finally the `turnComplete` and `interrupted` branches. -/
def processMessage (now : ℚ) (m : ServerMessage) (s : ComponentState) : MsgResult :=
  match m.audioData with
  | some payload =>
    if (applyDeltas m s).resources.outputAudioContext &&
        (applyDeltas m s).resources.outputGainNode then
      match payload with
      | .corrupt =>
        { state :=
            { applyDeltas m s with
              resources :=
                { (applyDeltas m s).resources with
                  nextStartTime := max (applyDeltas m s).resources.nextStartTime now } }
          scheduledStart := none
          stopped := [] }
      | .chunk d =>
        finishMessage s.currentTurn m
          { applyDeltas m s with
            nextSourceId := (applyDeltas m s).nextSourceId + 1
            resources :=
              { (applyDeltas m s).resources with
                nextStartTime := max (applyDeltas m s).resources.nextStartTime now + d
                sources := (applyDeltas m s).resources.sources ++ [(applyDeltas m s).nextSourceId] } }
          (some (max (applyDeltas m s).resources.nextStartTime now))
    else finishMessage s.currentTurn m (applyDeltas m s) none
  | none => finishMessage s.currentTurn m (applyDeltas m s) none

/-- `toggleConversation` (lines 302-308): stop when active or connecting,
start otherwise.  Note it does not clear the transcription log. -/
def toggleConversation (micOk : Bool) (s : ComponentState) : StartResult :=
  if s.isActive || s.isConnecting then
    { state := stopConversation s, connectAttempted := false }
  else startConversation micOk s

/-- The events that can reach the component: a button toggle, the
transport callbacks, a capture-buffer callback of the script processor,
and the `ended` listener of a playback source. -/
inductive Action where
  | toggle (micOk : Bool)
  | opened
  | message (now : ℚ) (m : ServerMessage)
  | capture (frameId : Nat)
  | sourceEnded (srcId : Nat)
  | errored
deriving DecidableEq

/-- State transition of one event. -/
def stepState (s : ComponentState) : Action → ComponentState
  | .toggle micOk => (toggleConversation micOk s).state
  | .opened => onOpen s
  | .message now m => (processMessage now m s).state
  | .capture _ => s
  | .sourceEnded srcId =>
    { s with resources := { s.resources with sources := s.resources.sources.erase srcId } }
  | .errored => onError s

/-- Outbound transmissions of one event.  A capture frame is sent by
`onaudioprocess` only when the script processor exists (it is created in
`onopen` and torn down by `stopConversation`) and `sessionRef.current`
is non-null (the `sessionRef.current?.then` guard); nothing is ever
stored, so no other event can emit a frame. -/
def stepSends (s : ComponentState) : Action → List Nat
  | .capture f => if s.resources.scriptProcessor && s.session then [f] else []
  | _ => []

/-- Run a list of events from a state. -/
def run (s : ComponentState) : List Action → ComponentState
  | [] => s
  | a :: as => run (stepState s a) as

/-- All frames transmitted over a run, in emission order. -/
def runSends (s : ComponentState) : List Action → List Nat
  | [] => []
  | a :: as => stepSends s a ++ runSends (stepState s a) as

/-- The capture frame carried by one event, if any. -/
def actionCapture : Action → List Nat
  | .capture f => [f]
  | _ => []

/-- All frames captured over a trace, in capture order. -/
def captures : List Action → List Nat
  | [] => []
  | a :: as => actionCapture a ++ captures as

/-- Message carrying only an audio chunk of the given duration. -/
def audioMsg (d : ℚ) : ServerMessage :=
  { outputTranscription := none
    inputTranscription := none
    audioData := some (.chunk d)
    turnComplete := false
    interrupted := false }

/-- Message carrying only a corrupt audio payload. -/
def corruptAudioMsg : ServerMessage :=
  { outputTranscription := none
    inputTranscription := none
    audioData := some .corrupt
    turnComplete := false
    interrupted := false }

/-- Message carrying only the `interrupted` flag. -/
def interruptMsg : ServerMessage :=
  { outputTranscription := none
    inputTranscription := none
    audioData := none
    turnComplete := false
    interrupted := true }

/-- Message carrying only the `turnComplete` flag. -/
def turnCompleteMsg : ServerMessage :=
  { outputTranscription := none
    inputTranscription := none
    audioData := none
    turnComplete := true
    interrupted := false }

/-- Deliver a sequence of audio chunks, each tagged with the playback
clock's reading `now` when its message is handled and its decoded
duration; collect the timestamps at which the chunks were scheduled. -/
def runAudio (s : ComponentState) : List (ℚ × ℚ) → ComponentState × List ℚ
  | [] => (s, [])
  | (now, d) :: rest =>
    ((runAudio (processMessage now (audioMsg d) s).state rest).1,
      (processMessage now (audioMsg d) s).scheduledStart.toList ++
        (runAudio (processMessage now (audioMsg d) s).state rest).2)

/-- An open session as produced by the source's own path: a granted
start followed by the `onopen` callback. -/
def openState : ComponentState := onOpen (startConversation true initState).state

/-- The playback side of the session is wired: the output audio context
and the gain node exist (the guard of the audio branch). -/
def PlaybackReady (s : ComponentState) : Prop :=
  s.resources.outputAudioContext = true ∧ s.resources.outputGainNode = true

/-- Reachability invariant of the component: the script processor exists
exactly while the session is active (it is created by `onopen` together
with `setIsActive(true)` and torn down by `stopConversation` together
with `setIsActive(false)`), and a connecting session is not yet
active. -/
def Inv (s : ComponentState) : Prop :=
  s.resources.scriptProcessor = s.isActive ∧ (s.isConnecting = true → s.isActive = false)

/-- Adjacency relation between consecutive (start time, (clock, duration))
records of a scheduled chunk sequence: the later chunk starts no earlier
than the earlier one ends, and exactly when it ends whenever the
next-start timestamp has not fallen behind the playback clock. -/
def GaplessStep (a b : ℚ × ℚ × ℚ) : Prop :=
  a.1 + a.2.2 ≤ b.1 ∧ (b.2.1 ≤ a.1 + a.2.2 → b.1 = a.1 + a.2.2)

/-- The start-time recurrence of the audio branch, extracted from the
source: a chunk handled at clock reading `now` with pending next-start
`n0` is scheduled at `max n0 now`, and the next-start advances to
`max n0 now + d`. -/
def startsFrom (n0 : ℚ) : List (ℚ × ℚ) → List ℚ
  | [] => []
  | (now, d) :: rest => max n0 now :: startsFrom (max n0 now + d) rest

/-- One transcript delta, as carried by an inbound message: a partial
local (`user`) or remote (`model`) transcript. -/
inductive Delta where
  | user (t : String)
  | model (t : String)
deriving DecidableEq

/-- The message carrying one transcript delta and nothing else. -/
def deltaMsg : Delta → ServerMessage
  | .user t =>
    { outputTranscription := none
      inputTranscription := some t
      audioData := none
      turnComplete := false
      interrupted := false }
  | .model t =>
    { outputTranscription := some t
      inputTranscription := none
      audioData := none
      turnComplete := false
      interrupted := false }

/-- Deliver a sequence of transcript-delta messages. -/
def runDeltas (s : ComponentState) : List Delta → ComponentState
  | [] => s
  | d :: ds => runDeltas (processMessage 0 (deltaMsg d) s).state ds

/-- Left-fold concatenation of the local deltas onto an accumulator, in
arrival order. -/
def accUser (u : String) : List Delta → String
  | [] => u
  | .user t :: ds => accUser (u ++ t) ds
  | .model _ :: ds => accUser u ds

/-- Left-fold concatenation of the remote deltas onto an accumulator, in
arrival order. -/
def accModel (v : String) : List Delta → String
  | [] => v
  | .user _ :: ds => accModel v ds
  | .model t :: ds => accModel (v ++ t) ds

/-! ### Helper lemmas about the message handler -/

lemma applyDeltas_fields (m : ServerMessage) (s : ComponentState) :
    (applyDeltas m s).isActive = s.isActive ∧
    (applyDeltas m s).isConnecting = s.isConnecting ∧
    (applyDeltas m s).transcription = s.transcription ∧
    (applyDeltas m s).error = s.error ∧
    (applyDeltas m s).session = s.session ∧
    (applyDeltas m s).resources = s.resources ∧
    (applyDeltas m s).nextSourceId = s.nextSourceId := by
  unfold applyDeltas applyInputDelta applyOutputDelta
  cases m.outputTranscription <;> cases m.inputTranscription <;>
    exact ⟨rfl, rfl, rfl, rfl, rfl, rfl, rfl⟩

lemma applyTurnComplete_fields (rt : TranscriptionTurn) (m : ServerMessage)
    (s : ComponentState) :
    (applyTurnComplete rt m s).isActive = s.isActive ∧
    (applyTurnComplete rt m s).isConnecting = s.isConnecting ∧
    (applyTurnComplete rt m s).error = s.error ∧
    (applyTurnComplete rt m s).session = s.session ∧
    (applyTurnComplete rt m s).resources = s.resources ∧
    (applyTurnComplete rt m s).nextSourceId = s.nextSourceId := by
  unfold applyTurnComplete
  by_cases ht : m.turnComplete <;> simp [ht]

lemma finishMessage_fields (rt : TranscriptionTurn) (m : ServerMessage)
    (s : ComponentState) (o : Option ℚ) :
    (finishMessage rt m s o).state.isActive = s.isActive ∧
    (finishMessage rt m s o).state.isConnecting = s.isConnecting ∧
    (finishMessage rt m s o).state.error = s.error ∧
    (finishMessage rt m s o).state.session = s.session ∧
    (finishMessage rt m s o).state.resources.scriptProcessor = s.resources.scriptProcessor ∧
    (finishMessage rt m s o).state.resources.outputAudioContext = s.resources.outputAudioContext ∧
    (finishMessage rt m s o).state.resources.outputGainNode = s.resources.outputGainNode ∧
    (finishMessage rt m s o).scheduledStart = o := by
  obtain ⟨h1, h2, h3, h4, h5, h6⟩ := applyTurnComplete_fields rt m s
  unfold finishMessage
  by_cases hi : m.interrupted <;> simp [hi, h1, h2, h3, h4, h5]

lemma processMessage_fields (now : ℚ) (m : ServerMessage) (s : ComponentState) :
    (processMessage now m s).state.isActive = s.isActive ∧
    (processMessage now m s).state.isConnecting = s.isConnecting ∧
    (processMessage now m s).state.error = s.error ∧
    (processMessage now m s).state.session = s.session ∧
    (processMessage now m s).state.resources.scriptProcessor = s.resources.scriptProcessor ∧
    (processMessage now m s).state.resources.outputAudioContext = s.resources.outputAudioContext ∧
    (processMessage now m s).state.resources.outputGainNode = s.resources.outputGainNode := by
  obtain ⟨d1, d2, d3, d4, d5, d6, d7⟩ := applyDeltas_fields m s
  unfold processMessage
  cases haud : m.audioData with
  | none =>
    obtain ⟨f1, f2, f3, f4, f5, f6, f7, f8⟩ :=
      finishMessage_fields s.currentTurn m (applyDeltas m s) none
    rw [f1, f2, f3, f4, f5, f6, f7, d1, d2, d4, d5, d6]
    exact ⟨rfl, rfl, rfl, rfl, rfl, rfl, rfl⟩
  | some payload =>
    dsimp only
    by_cases hctx :
        ((applyDeltas m s).resources.outputAudioContext &&
          (applyDeltas m s).resources.outputGainNode) = true
    · rw [if_pos hctx]
      cases payload with
      | corrupt =>
        rw [d1, d2, d4, d5, d6]
        exact ⟨rfl, rfl, rfl, rfl, rfl, rfl, rfl⟩
      | chunk d =>
        obtain ⟨f1, f2, f3, f4, f5, f6, f7, f8⟩ :=
          finishMessage_fields s.currentTurn m
            { applyDeltas m s with
              nextSourceId := (applyDeltas m s).nextSourceId + 1
              resources :=
                { (applyDeltas m s).resources with
                  nextStartTime := max (applyDeltas m s).resources.nextStartTime now + d
                  sources :=
                    (applyDeltas m s).resources.sources ++ [(applyDeltas m s).nextSourceId] } }
            (some (max (applyDeltas m s).resources.nextStartTime now))
        rw [f1, f2, f3, f4, f5, f6, f7, d1, d2, d4, d5, d6]
        exact ⟨rfl, rfl, rfl, rfl, rfl, rfl, rfl⟩
    · rw [if_neg hctx]
      obtain ⟨f1, f2, f3, f4, f5, f6, f7, f8⟩ :=
        finishMessage_fields s.currentTurn m (applyDeltas m s) none
      rw [f1, f2, f3, f4, f5, f6, f7, d1, d2, d4, d5, d6]
      exact ⟨rfl, rfl, rfl, rfl, rfl, rfl, rfl⟩

lemma processMessage_audioMsg (now d : ℚ) (s : ComponentState)
    (h1 : s.resources.outputAudioContext = true)
    (h2 : s.resources.outputGainNode = true) :
    processMessage now (audioMsg d) s =
      { state :=
          { s with
            nextSourceId := s.nextSourceId + 1
            resources :=
              { s.resources with
                nextStartTime := max s.resources.nextStartTime now + d
                sources := s.resources.sources ++ [s.nextSourceId] } }
        scheduledStart := some (max s.resources.nextStartTime now)
        stopped := [] } := by
  simp [processMessage, audioMsg, applyDeltas, applyInputDelta, applyOutputDelta,
    finishMessage, applyTurnComplete, h1, h2]

lemma processMessage_corruptMsg (now : ℚ) (s : ComponentState)
    (h1 : s.resources.outputAudioContext = true)
    (h2 : s.resources.outputGainNode = true) :
    processMessage now corruptAudioMsg s =
      { state :=
          { s with
            resources :=
              { s.resources with nextStartTime := max s.resources.nextStartTime now } }
        scheduledStart := none
        stopped := [] } := by
  simp [processMessage, corruptAudioMsg, applyDeltas, applyInputDelta, applyOutputDelta,
    h1, h2]

lemma processMessage_interruptMsg (now : ℚ) (s : ComponentState) :
    processMessage now interruptMsg s =
      { state :=
          { s with
            resources := { s.resources with sources := [], nextStartTime := 0 } }
        scheduledStart := none
        stopped := s.resources.sources } := by
  simp [processMessage, interruptMsg, applyDeltas, applyInputDelta, applyOutputDelta,
    finishMessage, applyTurnComplete]

lemma processMessage_turnCompleteMsg (now : ℚ) (s : ComponentState) :
    processMessage now turnCompleteMsg s =
      { state :=
          { s with
            transcription :=
              if s.currentTurn.user ≠ "" ∨ s.currentTurn.model ≠ "" then
                s.transcription ++ [s.currentTurn]
              else s.transcription
            currentTurn := ⟨"", ""⟩ }
        scheduledStart := none
        stopped := [] } := by
  simp [processMessage, turnCompleteMsg, applyDeltas, applyInputDelta, applyOutputDelta,
    finishMessage, applyTurnComplete]

lemma processMessage_userDeltaMsg (now : ℚ) (t : String) (s : ComponentState) :
    processMessage now (deltaMsg (.user t)) s =
      { state :=
          { s with currentTurn := { s.currentTurn with user := s.currentTurn.user ++ t } }
        scheduledStart := none
        stopped := [] } := by
  simp [processMessage, deltaMsg, applyDeltas, applyInputDelta, applyOutputDelta,
    finishMessage, applyTurnComplete]

lemma processMessage_modelDeltaMsg (now : ℚ) (t : String) (s : ComponentState) :
    processMessage now (deltaMsg (.model t)) s =
      { state :=
          { s with currentTurn := { s.currentTurn with model := s.currentTurn.model ++ t } }
        scheduledStart := none
        stopped := [] } := by
  simp [processMessage, deltaMsg, applyDeltas, applyInputDelta, applyOutputDelta,
    finishMessage, applyTurnComplete]

lemma applyTurnComplete_transcription (rt : TranscriptionTurn) (m : ServerMessage)
    (s : ComponentState) :
    (applyTurnComplete rt m s).transcription = s.transcription ∨
      (m.turnComplete = true ∧
        (applyTurnComplete rt m s).transcription = s.transcription ++ [rt]) := by
  unfold applyTurnComplete
  by_cases ht : m.turnComplete
  · by_cases hne : rt.user ≠ "" ∨ rt.model ≠ ""
    · exact Or.inr ⟨ht, by simp [ht, hne]⟩
    · exact Or.inl (by simp [ht, hne])
  · exact Or.inl (by simp [ht])

lemma finishMessage_transcription (rt : TranscriptionTurn) (m : ServerMessage)
    (s : ComponentState) (o : Option ℚ) :
    (finishMessage rt m s o).state.transcription = s.transcription ∨
      (m.turnComplete = true ∧
        (finishMessage rt m s o).state.transcription = s.transcription ++ [rt]) := by
  have h := applyTurnComplete_transcription rt m s
  unfold finishMessage
  by_cases hi : m.interrupted <;> simp [hi] <;> exact h

lemma processMessage_transcription (now : ℚ) (m : ServerMessage) (s : ComponentState) :
    (processMessage now m s).state.transcription = s.transcription ∨
      (m.turnComplete = true ∧
        (processMessage now m s).state.transcription = s.transcription ++ [s.currentTurn]) := by
  obtain ⟨-, -, d3, -, -, -, -⟩ := applyDeltas_fields m s
  unfold processMessage
  cases haud : m.audioData with
  | none =>
    have h := finishMessage_transcription s.currentTurn m (applyDeltas m s) none
    rw [d3] at h
    exact h
  | some payload =>
    dsimp only
    by_cases hctx :
        ((applyDeltas m s).resources.outputAudioContext &&
          (applyDeltas m s).resources.outputGainNode) = true
    · rw [if_pos hctx]
      cases payload with
      | corrupt => exact Or.inl d3
      | chunk d =>
        have h := finishMessage_transcription s.currentTurn m
          { applyDeltas m s with
            nextSourceId := (applyDeltas m s).nextSourceId + 1
            resources :=
              { (applyDeltas m s).resources with
                nextStartTime := max (applyDeltas m s).resources.nextStartTime now + d
                sources :=
                  (applyDeltas m s).resources.sources ++ [(applyDeltas m s).nextSourceId] } }
          (some (max (applyDeltas m s).resources.nextStartTime now))
        rw [show ({ applyDeltas m s with
            nextSourceId := (applyDeltas m s).nextSourceId + 1
            resources :=
              { (applyDeltas m s).resources with
                nextStartTime := max (applyDeltas m s).resources.nextStartTime now + d
                sources :=
                  (applyDeltas m s).resources.sources ++ [(applyDeltas m s).nextSourceId] } } :
            ComponentState).transcription = s.transcription from d3] at h
        exact h
    · rw [if_neg hctx]
      have h := finishMessage_transcription s.currentTurn m (applyDeltas m s) none
      rw [d3] at h
      exact h

/-! ### The reachability invariant and the capture path -/

lemma inv_initState : Inv initState :=
  ⟨rfl, fun _ => rfl⟩

lemma inv_stepState (s : ComponentState) (a : Action) (h : Inv s) : Inv (stepState s a) := by
  obtain ⟨h1, h2⟩ := h
  cases a with
  | toggle micOk =>
    by_cases hb : (s.isActive || s.isConnecting) = true
    · simp [stepState, toggleConversation, hb, stopConversation, initResources, Inv]
    · have ha : s.isActive = false := by
        cases hx : s.isActive
        · rfl
        · exact absurd (by rw [hx]; rfl) hb
      have hc : s.isConnecting = false := by
        cases hx : s.isConnecting
        · rfl
        · exact absurd (by rw [hx, Bool.or_true]) hb
      cases micOk with
      | true =>
        refine ⟨?_, fun _ => ?_⟩ <;>
          simp [stepState, toggleConversation, hb, startConversation, h1, ha, hc]
      | false =>
        refine ⟨?_, fun _ => ?_⟩ <;>
          simp [stepState, toggleConversation, hb, startConversation, stopConversation,
            initResources]
  | opened => exact ⟨rfl, fun hx => by simp [stepState, onOpen] at hx⟩
  | message now m =>
    obtain ⟨p1, p2, -, -, p5, -, -⟩ := processMessage_fields now m s
    exact ⟨by rw [stepState, p1, p5, h1], fun hx => by
      rw [stepState, p1]
      exact h2 (by rw [stepState, p2] at hx; exact hx)⟩
  | capture f => exact ⟨h1, h2⟩
  | sourceEnded i => exact ⟨h1, h2⟩
  | errored => exact ⟨rfl, fun _ => rfl⟩

lemma inv_run (acts : List Action) : ∀ (s : ComponentState), Inv s → Inv (run s acts) := by
  induction acts with
  | nil => exact fun s h => h
  | cons a as ih => exact fun s h => ih (stepState s a) (inv_stepState s a h)

lemma stepSends_sublist (s : ComponentState) (a : Action) :
    List.Sublist (stepSends s a) (actionCapture a) := by
  cases a with
  | capture f =>
    by_cases hg : (s.resources.scriptProcessor && s.session) = true
    · simp [stepSends, actionCapture, hg]
    · simp [stepSends, actionCapture, hg]
  | toggle micOk => exact List.Sublist.refl []
  | opened => exact List.Sublist.refl []
  | message now m => exact List.Sublist.refl []
  | sourceEnded i => exact List.Sublist.refl []
  | errored => exact List.Sublist.refl []

lemma runSends_sublist (acts : List Action) :
    ∀ (s : ComponentState), List.Sublist (runSends s acts) (captures acts) := by
  induction acts with
  | nil => exact fun s => List.Sublist.refl []
  | cons a as ih =>
    intro s
    rw [runSends, captures]
    exact List.Sublist.append (stepSends_sublist s a) (ih (stepState s a))

/-! ### The start-time recurrence -/

lemma runAudio_eq (chunks : List (ℚ × ℚ)) :
    ∀ (s : ComponentState), PlaybackReady s →
      (runAudio s chunks).2 = startsFrom s.resources.nextStartTime chunks ∧
      PlaybackReady (runAudio s chunks).1 := by
  induction chunks with
  | nil => exact fun s hs => ⟨rfl, hs⟩
  | cons c rest ih =>
    intro s hs
    obtain ⟨now, d⟩ := c
    have hstep := processMessage_audioMsg now d s hs.1 hs.2
    have hready : PlaybackReady (processMessage now (audioMsg d) s).state := by
      rw [hstep]; exact hs
    have hnext :
        (processMessage now (audioMsg d) s).state.resources.nextStartTime =
          max s.resources.nextStartTime now + d := by
      rw [hstep]
    obtain ⟨ihe, ihr⟩ := ih (processMessage now (audioMsg d) s).state hready
    constructor
    · show (processMessage now (audioMsg d) s).scheduledStart.toList ++
        (runAudio (processMessage now (audioMsg d) s).state rest).2 =
          startsFrom s.resources.nextStartTime ((now, d) :: rest)
      rw [ihe, hnext, startsFrom]
      rw [show (processMessage now (audioMsg d) s).scheduledStart =
        some (max s.resources.nextStartTime now) from by rw [hstep]]
      rfl
    · exact ihr

lemma startsFrom_length (chunks : List (ℚ × ℚ)) :
    ∀ (n0 : ℚ), (startsFrom n0 chunks).length = chunks.length := by
  induction chunks with
  | nil => exact fun n0 => rfl
  | cons c rest ih =>
    intro n0
    obtain ⟨now, d⟩ := c
    rw [startsFrom, List.length_cons, List.length_cons, ih]

lemma startsFrom_chain :
    ∀ (chunks : List (ℚ × ℚ)) (n0 : ℚ),
      List.Chain' GaplessStep ((startsFrom n0 chunks).zip chunks)
  | [], _ => by simp [startsFrom]
  | [(now, d)], _ => by simp [startsFrom]
  | (na, da) :: (nb, db) :: rest, n0 => by
    have ih := startsFrom_chain ((nb, db) :: rest) (max n0 na + da)
    simp only [startsFrom] at ih ⊢
    simp only [List.zip_cons_cons] at ih ⊢
    rw [List.chain'_cons]
    exact ⟨⟨le_max_left _ _, fun hle => max_eq_left hle⟩, ih⟩

lemma startsFrom_lb (chunks : List (ℚ × ℚ)) :
    ∀ (n0 : ℚ), (∀ p ∈ chunks, 0 ≤ p.2) →
      ∀ x ∈ startsFrom n0 chunks, n0 ≤ x := by
  induction chunks with
  | nil => intro n0 _ x hx; simp [startsFrom] at hx
  | cons c rest ih =>
    intro n0 hd x hx
    obtain ⟨now, d⟩ := c
    rw [startsFrom, List.mem_cons] at hx
    rcases hx with hx | hx
    · rw [hx]; exact le_max_left _ _
    · have hd0 : (0 : ℚ) ≤ d := hd (now, d) (List.mem_cons_self (now, d) rest)
      have := ih (max n0 now + d) (fun p hp => hd p (List.mem_cons_of_mem _ hp)) x hx
      calc n0 ≤ max n0 now := le_max_left _ _
        _ ≤ max n0 now + d := le_add_of_nonneg_right hd0
        _ ≤ x := this

lemma startsFrom_pairwise (chunks : List (ℚ × ℚ)) :
    ∀ (n0 : ℚ), (∀ p ∈ chunks, 0 ≤ p.2) →
      (startsFrom n0 chunks).Pairwise (· ≤ ·) := by
  induction chunks with
  | nil => intro n0 _; exact List.Pairwise.nil
  | cons c rest ih =>
    intro n0 hd
    obtain ⟨now, d⟩ := c
    rw [startsFrom]
    refine List.Pairwise.cons (fun x hx => ?_)
      (ih (max n0 now + d) (fun p hp => hd p (List.mem_cons_of_mem _ hp)))
    have hd0 : (0 : ℚ) ≤ d := hd (now, d) (List.mem_cons_self (now, d) rest)
    have hlb := startsFrom_lb rest (max n0 now + d)
      (fun p hp => hd p (List.mem_cons_of_mem _ hp)) x hx
    calc max n0 now ≤ max n0 now + d := le_add_of_nonneg_right hd0
      _ ≤ x := hlb

/-! ### Delta accumulation -/

lemma runDeltas_spec (ds : List Delta) :
    ∀ (s : ComponentState),
      (runDeltas s ds).currentTurn.user = accUser s.currentTurn.user ds ∧
      (runDeltas s ds).currentTurn.model = accModel s.currentTurn.model ds ∧
      (runDeltas s ds).transcription = s.transcription ∧
      (runDeltas s ds).resources = s.resources := by
  induction ds with
  | nil => exact fun s => ⟨rfl, rfl, rfl, rfl⟩
  | cons d ds ih =>
    intro s
    cases d with
    | user t =>
      have hstep := processMessage_userDeltaMsg 0 t s
      obtain ⟨i1, i2, i3, i4⟩ := ih (processMessage 0 (deltaMsg (.user t)) s).state
      rw [runDeltas, i1, i2, i3, i4, hstep]
      exact ⟨rfl, rfl, rfl, rfl⟩
    | model t =>
      have hstep := processMessage_modelDeltaMsg 0 t s
      obtain ⟨i1, i2, i3, i4⟩ := ih (processMessage 0 (deltaMsg (.model t)) s).state
      rw [runDeltas, i1, i2, i3, i4, hstep]
      exact ⟨rfl, rfl, rfl, rfl⟩

/-! ### Claim theorems -/

/-- C1: for every sequence of inbound audio chunks processed while the
session is open and uninterrupted, chunk `i+1` starts no earlier than
chunk `i`'s start plus chunk `i`'s duration, the scheduled start times
are monotonically non-decreasing, the chunks are scheduled exactly
back-to-back whenever the pending next-start timestamp is at or ahead of
the playback clock, and two chunks of `1/2` s (500 ms) and `3/10` s
(300 ms) delivered back-to-back span exactly `4/5` s (800 ms). -/
theorem audio_scheduling_gapless (s : ComponentState) (chunks : List (ℚ × ℚ))
    (hp : PlaybackReady s) (hd : ∀ p ∈ chunks, 0 ≤ p.2) :
    ((runAudio s chunks).2).length = chunks.length ∧
    List.Chain' GaplessStep (((runAudio s chunks).2).zip chunks) ∧
    ((runAudio s chunks).2).Pairwise (· ≤ ·) ∧
    (∀ now now' : ℚ, now' ≤ max s.resources.nextStartTime now + 1/2 →
      (runAudio s [(now, 1/2), (now', 3/10)]).2 =
        [max s.resources.nextStartTime now, max s.resources.nextStartTime now + 1/2] ∧
      max s.resources.nextStartTime now + 1/2 + 3/10 -
        max s.resources.nextStartTime now = 4/5) := by
  obtain ⟨he, -⟩ := runAudio_eq chunks s hp
  refine ⟨by rw [he, startsFrom_length], by rw [he]; exact startsFrom_chain chunks _,
    by rw [he]; exact startsFrom_pairwise chunks _ hd, ?_⟩
  intro now now' hback
  obtain ⟨he2, -⟩ := runAudio_eq [(now, 1/2), (now', 3/10)] s hp
  constructor
  · rw [he2]
    simp only [startsFrom]
    rw [max_eq_left hback]
  · ring

/-- C1 (witness): the theorem applied to the freshly opened session and
the two chunks of the spec scenario — 500 ms and 300 ms delivered
back-to-back at clock 0 — giving a contiguous span of exactly 800 ms. -/
theorem audio_scheduling_gapless_witness :
    (runAudio openState [((0 : ℚ), 1/2), ((0 : ℚ), 3/10)]).2 =
      [max openState.resources.nextStartTime 0,
        max openState.resources.nextStartTime 0 + 1/2] ∧
    max openState.resources.nextStartTime 0 + 1/2 + 3/10 -
      max openState.resources.nextStartTime 0 = 4/5 :=
  (audio_scheduling_gapless openState [((0 : ℚ), 1/2), ((0 : ℚ), 3/10)] ⟨rfl, rfl⟩
      (by intro p hp; rcases List.mem_cons.1 hp with h | h
          · rw [h]; norm_num
          · rw [List.mem_singleton.1 h]; norm_num)).2.2.2 0 0
    (le_trans (le_max_right _ _) (le_add_of_nonneg_right (by norm_num)))

/-- C2 (amended): on an `interrupted` message every source in the active
set receives `stop()` and the set empties, and `nextStartTime` is reset
to `0` — not to the playback clock's current reading — which still
guarantees that the next inbound chunk is scheduled exactly at the
then-current (non-negative) clock reading, hence no later than it. -/
theorem interruption_reset (s : ComponentState) (now now' d : ℚ)
    (h0 : 0 ≤ now') (hp : PlaybackReady s) :
    (processMessage now interruptMsg s).stopped = s.resources.sources ∧
    (processMessage now interruptMsg s).state.resources.sources = [] ∧
    (processMessage now interruptMsg s).state.resources.nextStartTime = 0 ∧
    (processMessage now' (audioMsg d)
        (processMessage now interruptMsg s).state).scheduledStart = some now' := by
  have hstep := processMessage_interruptMsg now s
  have ht1 : (processMessage now interruptMsg s).state.resources.outputAudioContext = true := by
    rw [hstep]; exact hp.1
  have ht2 : (processMessage now interruptMsg s).state.resources.outputGainNode = true := by
    rw [hstep]; exact hp.2
  have ht3 : (processMessage now interruptMsg s).state.resources.nextStartTime = 0 := by
    rw [hstep]
  refine ⟨by rw [hstep], by rw [hstep], ht3, ?_⟩
  rw [processMessage_audioMsg now' d (processMessage now interruptMsg s).state ht1 ht2]
  show some (max (processMessage now interruptMsg s).state.resources.nextStartTime now') =
    some now'
  rw [ht3, max_eq_right h0]

/-- C2 (counterexample): after scheduling a chunk in an open session, an
interruption handled while the playback clock reads `3` leaves
`nextStartTime = 0`, not the clock's current time `3` as the claim
states. -/
theorem interruption_reset_counterexample :
    (processMessage 0 (audioMsg (1/2)) openState).state.resources.sources ≠ [] ∧
    (processMessage 3 interruptMsg
        (processMessage 0 (audioMsg (1/2)) openState).state).state.resources.nextStartTime
      ≠ 3 := by
  constructor
  · rw [processMessage_audioMsg 0 (1/2) openState rfl rfl]
    decide
  · rw [processMessage_interruptMsg]
    decide

/-- C2 (witness): the amended theorem applied to the open state holding
one scheduled chunk, interrupted at clock `3`, with the next chunk
arriving at clock `5`. -/
theorem interruption_reset_witness :
    (processMessage 3 interruptMsg
        (processMessage 0 (audioMsg (1/2)) openState).state).state.resources.sources = [] ∧
    (processMessage 3 interruptMsg
        (processMessage 0 (audioMsg (1/2)) openState).state).state.resources.nextStartTime = 0 ∧
    (processMessage 5 (audioMsg 1)
        (processMessage 3 interruptMsg
          (processMessage 0 (audioMsg (1/2)) openState).state).state).scheduledStart = some 5 := by
  have h := interruption_reset (processMessage 0 (audioMsg (1/2)) openState).state 3 5 1
    (by norm_num) ⟨rfl, rfl⟩
  exact ⟨h.2.1, h.2.2.1, h.2.2.2⟩

/-- C3: `stopConversation` is idempotent and safe from any state — a
second call is a no-op leaving the state unchanged, and already the first
call releases the microphone stream, the audio contexts and the audio
graph nodes (the resource bundle is back at its initial value), drops
the session, and reports no error. -/
theorem stop_idempotent (s : ComponentState) :
    stopConversation (stopConversation s) = stopConversation s ∧
    (stopConversation s).resources = initResources ∧
    (stopConversation s).session = false ∧
    (stopConversation s).isActive = false ∧
    (stopConversation s).error = none :=
  ⟨rfl, rfl, rfl, rfl, rfl⟩

/-- C4: over any event trace from the initial state, the transmitted
frames are a sublist of the captured frames (each frame sent at most
once, in capture order); a frame captured while the session is
connecting is dropped on the spot; a frame captured while the session is
open with a live session ref is transmitted; and no event other than a
capture ever transmits anything, so a dropped frame can never be flushed
later. -/
theorem capture_transmission (acts pre : List Action) (f : Nat) :
    List.Sublist (runSends initState acts) (captures acts) ∧
    ((run initState pre).isConnecting = true →
      stepSends (run initState pre) (Action.capture f) = []) ∧
    ((run initState pre).isActive = true ∧ (run initState pre).session = true →
      stepSends (run initState pre) (Action.capture f) = [f]) ∧
    (∀ (s : ComponentState) (a : Action),
      stepSends s a = [] ∨ ∃ g, a = Action.capture g ∧ stepSends s a = [g]) := by
  obtain ⟨j1, j2⟩ := inv_run pre initState inv_initState
  refine ⟨runSends_sublist acts initState, ?_, ?_, ?_⟩
  · intro hconn
    have hact := j2 hconn
    rw [stepSends, j1, hact]
    rfl
  · rintro ⟨hact, hsess⟩
    rw [stepSends, j1, hact, hsess]
    rfl
  · intro s a
    cases a with
    | capture g =>
      by_cases hg : (s.resources.scriptProcessor && s.session) = true
      · exact Or.inr ⟨g, rfl, by simp [stepSends, hg]⟩
      · exact Or.inl (by simp [stepSends, hg])
    | toggle micOk => exact Or.inl rfl
    | opened => exact Or.inl rfl
    | message now m => exact Or.inl rfl
    | sourceEnded i => exact Or.inl rfl
    | errored => exact Or.inl rfl

/-- C4 (witness): on the trace start, capture 7 (still connecting),
open, capture 8 — frame 7 is dropped while connecting and the sends are
a sublist of the captures. -/
theorem capture_transmission_witness :
    stepSends (run initState [Action.toggle true]) (Action.capture 7) = [] ∧
    List.Sublist
      (runSends initState
        [Action.toggle true, Action.capture 7, Action.opened, Action.capture 8])
      (captures [Action.toggle true, Action.capture 7, Action.opened, Action.capture 8]) := by
  have h := capture_transmission
    [Action.toggle true, Action.capture 7, Action.opened, Action.capture 8]
    [Action.toggle true] 7
  exact ⟨h.2.1 (by decide), h.1⟩

/-- C5 (amended): delivering transcript-delta messages and then a
turn-complete message, starting from empty accumulators, accumulates the
deltas in arrival order; on turn-complete exactly one record holding the
concatenated (local, remote) pair is appended provided at least one
component is nonempty — if both are empty no record is appended, which
is where the unqualified claim fails — and the accumulators are reset to
empty strings in either case. -/
theorem turn_append (s : ComponentState) (ds : List Delta) (now : ℚ)
    (h : s.currentTurn = ⟨"", ""⟩) :
    (accUser "" ds ≠ "" ∨ accModel "" ds ≠ "" →
      (processMessage now turnCompleteMsg (runDeltas s ds)).state.transcription =
        s.transcription ++ [⟨accUser "" ds, accModel "" ds⟩]) ∧
    (accUser "" ds = "" ∧ accModel "" ds = "" →
      (processMessage now turnCompleteMsg (runDeltas s ds)).state.transcription =
        s.transcription) ∧
    (processMessage now turnCompleteMsg (runDeltas s ds)).state.currentTurn = ⟨"", ""⟩ := by
  obtain ⟨hu, hm, ht, -⟩ := runDeltas_spec ds s
  rw [h] at hu hm
  have hct : (runDeltas s ds).currentTurn = ⟨accUser "" ds, accModel "" ds⟩ := by
    rw [← hu, ← hm]
  rw [processMessage_turnCompleteMsg]
  refine ⟨?_, ?_, rfl⟩
  · intro hne
    simp only [hct, ht]
    rw [if_pos hne]
  · rintro ⟨he1, he2⟩
    simp only [hct, ht, he1, he2]
    rw [if_neg (by simp)]

/-- C5 (counterexample): a turn-complete message preceded by zero
transcript deltas, from an open session with empty accumulators, appends
no record at all — not one record holding the (empty, empty)
concatenation as the unqualified claim requires. -/
theorem turn_append_counterexample :
    (processMessage 0 turnCompleteMsg openState).state.transcription ≠
      openState.transcription ++ [⟨"", ""⟩] := by
  rw [processMessage_turnCompleteMsg]
  decide

/-- C5 (witness): local deltas forming "hello" and remote deltas forming
"hi there" followed by turn-complete yield exactly the one record
`⟨"hello", "hi there"⟩` with the accumulators reset to empty. -/
theorem turn_append_witness :
    (processMessage 0 turnCompleteMsg
        (runDeltas openState
          [Delta.user "hel", Delta.user "lo", Delta.model "hi ",
            Delta.model "there"])).state.transcription = [⟨"hello", "hi there"⟩] ∧
    (processMessage 0 turnCompleteMsg
        (runDeltas openState
          [Delta.user "hel", Delta.user "lo", Delta.model "hi ",
            Delta.model "there"])).state.currentTurn = ⟨"", ""⟩ := by
  have h := turn_append openState
    [Delta.user "hel", Delta.user "lo", Delta.model "hi ", Delta.model "there"] 0 rfl
  have h1 := h.1 (by decide)
  constructor
  · rw [h1]
    decide
  · exact h.2.2

/-- C6: evaluation at the failing input — microphone permission denied
during `startConversation` from the idle state.  The session indeed never
opens and no transport connection attempt is made, but the recorded
error is `none`: the `catch` block's `setError` is immediately undone by
`stopConversation()`'s `setError(null)`, so the failure is not surfaced,
contradicting the claim. -/
theorem mic_denied_start_eval :
    (startConversation false initState).connectAttempted = false ∧
    (startConversation false initState).state.isActive = false ∧
    (startConversation false initState).state.isConnecting = false ∧
    (startConversation false initState).state.session = false ∧
    (startConversation false initState).state.resources = initResources ∧
    (startConversation false initState).state.error = none :=
  ⟨rfl, rfl, rfl, rfl, rfl, rfl⟩

/-- C7: evaluation of the transport error callback — `onError` performs
exactly the teardown of `stopConversation` (microphone and audio
resources released, session dropped), but its final error state is
`none`: the message set by `setError` is wiped by the `setError(null)`
inside `stopConversation()`, so no user-observable error condition
remains after teardown, contradicting the claim. -/
theorem transport_error_teardown_eval (s : ComponentState) :
    onError s = stopConversation s ∧
    (onError s).error = none ∧
    (onError s).resources = initResources ∧
    (onError s).isActive = false ∧
    (onError s).session = false :=
  ⟨rfl, rfl, rfl, rfl, rfl⟩

/-- C8: a decode failure on one inbound chunk only applies the clock
catch-up `max nextStartTime now` and aborts the handler: no buffer is
scheduled, no source is stopped or added, the active set, session
activity and turn log are untouched, and — for a monotone clock — the
next chunk is scheduled exactly as it would have been had the corrupt
chunk never arrived. -/
theorem decode_failure_skip (s : ComponentState) (now now' d : ℚ)
    (hp : PlaybackReady s) (hmono : now ≤ now') :
    (processMessage now corruptAudioMsg s).state =
      { s with
        resources :=
          { s.resources with nextStartTime := max s.resources.nextStartTime now } } ∧
    (processMessage now corruptAudioMsg s).scheduledStart = none ∧
    (processMessage now corruptAudioMsg s).stopped = [] ∧
    (processMessage now corruptAudioMsg s).state.resources.sources = s.resources.sources ∧
    (processMessage now corruptAudioMsg s).state.isActive = s.isActive ∧
    (processMessage now corruptAudioMsg s).state.transcription = s.transcription ∧
    (processMessage now' (audioMsg d) (processMessage now corruptAudioMsg s).state).scheduledStart =
      (processMessage now' (audioMsg d) s).scheduledStart := by
  have hstep := processMessage_corruptMsg now s hp.1 hp.2
  have ht1 : (processMessage now corruptAudioMsg s).state.resources.outputAudioContext = true := by
    rw [hstep]; exact hp.1
  have ht2 : (processMessage now corruptAudioMsg s).state.resources.outputGainNode = true := by
    rw [hstep]; exact hp.2
  have ht3 : (processMessage now corruptAudioMsg s).state.resources.nextStartTime =
      max s.resources.nextStartTime now := by
    rw [hstep]
  refine ⟨by rw [hstep], by rw [hstep], by rw [hstep], by rw [hstep], by rw [hstep],
    by rw [hstep], ?_⟩
  rw [processMessage_audioMsg now' d (processMessage now corruptAudioMsg s).state ht1 ht2,
    processMessage_audioMsg now' d s hp.1 hp.2]
  show some (max (processMessage now corruptAudioMsg s).state.resources.nextStartTime now') =
    some (max s.resources.nextStartTime now')
  rw [ht3, max_assoc, max_eq_right hmono]

/-- C8 (witness): a corrupt chunk at clock 2 in the open session leaves
the active set unchanged and the next chunk (clock 3) is scheduled as if
the corrupt chunk had never arrived. -/
theorem decode_failure_skip_witness :
    (processMessage 2 corruptAudioMsg openState).state.resources.sources =
      openState.resources.sources ∧
    (processMessage 2 corruptAudioMsg openState).state.isActive = openState.isActive ∧
    (processMessage 3 (audioMsg 1)
        (processMessage 2 corruptAudioMsg openState).state).scheduledStart =
      (processMessage 3 (audioMsg 1) openState).scheduledStart := by
  have h := decode_failure_skip openState 2 3 1 ⟨rfl, rfl⟩ (by norm_num)
  exact ⟨h.2.2.2.1, h.2.2.2.2.1, h.2.2.2.2.2.2⟩

/-- C9: a turn-complete message arriving while both in-progress
accumulators are empty appends nothing to the turn log and leaves the
accumulators empty. -/
theorem empty_turn_complete_noop (s : ComponentState) (now : ℚ)
    (h : s.currentTurn = ⟨"", ""⟩) :
    (processMessage now turnCompleteMsg s).state.transcription = s.transcription ∧
    (processMessage now turnCompleteMsg s).state.currentTurn = ⟨"", ""⟩ := by
  rw [processMessage_turnCompleteMsg]
  refine ⟨?_, rfl⟩
  simp [h]

/-- C9 (witness): the theorem applied to the freshly opened session,
whose accumulators are empty. -/
theorem empty_turn_complete_noop_witness :
    (processMessage 0 turnCompleteMsg openState).state.transcription =
      openState.transcription ∧
    (processMessage 0 turnCompleteMsg openState).state.currentTurn = ⟨"", ""⟩ :=
  ⟨(empty_turn_complete_noop openState 0 rfl).1,
    (empty_turn_complete_noop openState 0 rfl).2⟩

/-- C10: the turn log is append-only across the lifecycle — `stop`,
`start` (with either microphone outcome) and the error teardown keep it
exactly, and every event either leaves it unchanged or is a turn-complete
message appending one record (the pre-message accumulator pair). -/
theorem transcript_append_only (s : ComponentState) (micOk : Bool) (a : Action) :
    (stopConversation s).transcription = s.transcription ∧
    ((startConversation micOk s).state).transcription = s.transcription ∧
    (onError s).transcription = s.transcription ∧
    ((stepState s a).transcription = s.transcription ∨
      (∃ now m, a = Action.message now m ∧ m.turnComplete = true ∧
        (stepState s a).transcription = s.transcription ++ [s.currentTurn])) := by
  refine ⟨rfl, ?_, rfl, ?_⟩
  · cases micOk <;> rfl
  · cases a with
    | message now m =>
      rcases processMessage_transcription now m s with hcase | ⟨htc, hcase⟩
      · exact Or.inl hcase
      · exact Or.inr ⟨now, m, rfl, htc, hcase⟩
    | toggle micOk =>
      left
      by_cases hb : (s.isActive || s.isConnecting) = true
      · simp [stepState, toggleConversation, hb, stopConversation]
      · cases micOk <;>
          simp [stepState, toggleConversation, hb, startConversation, stopConversation]
    | opened => exact Or.inl rfl
    | capture f => exact Or.inl rfl
    | sourceEnded i => exact Or.inl rfl
    | errored => exact Or.inl rfl

end LiveConv
